import Mathlib

/-!
Verification development for the dcf-calc valuation engine.

The Python sources (src/backend/valuation_models.py, valuation_service.py,
data_provider.py) are shallowly embedded below: floats become rationals,
stateful code becomes explicit state passing, and fallible code returns
`Except`.  Division in ℚ is total (x / 0 = 0); every division performed by
the embedded code is guarded exactly as in the source, so the semantics
coincide on the reachable inputs.
-/

set_option maxHeartbeats 1000000

namespace DcfCalc

/-! ### Data model (valuation_models.py, dataclasses) -/

structure ScenarioProfile where
  name : String
  growth_rates : List ℚ
  terminal_multiple : ℚ
  probability : ℚ
deriving DecidableEq

structure ScenarioValuation where
  name : String
  intrinsic_value : ℚ
  buy_price : ℚ
  upside : ℚ
  downside : ℚ
  margin_of_safety_pct : ℚ
  effective_growth_rates : List ℚ
  terminal_multiple : ℚ
  cashflows : List ℚ
  discounted_cashflows : List ℚ
  terminal_value : ℚ
  discounted_terminal_value : ℚ
  warnings : List String
deriving DecidableEq

structure AggregateValuation where
  scenario_results : List ScenarioValuation
  weighted_intrinsic_value : ℚ
  margin_of_safety_buy_price : ℚ
  current_price : ℚ
  metadata : List (String × ℚ)
  warnings : List String
deriving DecidableEq

/-! ### Helpers shared by the embedding -/

/-- Python `round` / format rounding: round half to even. -/
def pyRoundHalfEven (q : ℚ) : ℤ :=
  let f := ⌊q⌋
  let frac := q - (f : ℚ)
  if frac < 1/2 then f
  else if 1/2 < frac then f + 1
  else if f % 2 = 0 then f else f + 1

/-- Python format spec `.0%`: percentage with zero decimals. -/
def formatPct (q : ℚ) : String :=
  toString (pyRoundHalfEven (q * 100)) ++ "%"

/-- Python format spec `.1f`: fixed-point with one decimal. -/
def format1f (q : ℚ) : String :=
  let n := pyRoundHalfEven (q * 10)
  let sign := if n < 0 then "-" else ""
  sign ++ toString ((Int.natAbs n) / 10) ++ "." ++ toString ((Int.natAbs n) % 10)

/-- Python `list(dict.fromkeys(ws))`: de-duplicate keeping first occurrences. -/
def dedupFirst : List String → List String
  | [] => []
  | x :: xs => x :: dedupFirst (xs.filter (fun y => y != x))
termination_by l => l.length
decreasing_by
  simp only [List.length_cons]
  exact Nat.lt_succ_of_le (List.length_filter_le _ _)

/-- Monadic map over `Except`: the semantics of a Python `for` loop whose body
may `raise`, collecting results and stopping at the first failure. -/
def mapExcept (f : α → Except String β) : List α → Except String (List β)
  | [] => .ok []
  | a :: as =>
    match f a with
    | .error e => .error e
    | .ok b =>
      match mapExcept f as with
      | .error e => .error e
      | .ok bs => .ok (b :: bs)

/-! ### DiscountedCashFlowModel (valuation_models.py lines 42-130) -/

structure DiscountedCashFlowModel where
  discount_rate : ℚ
  margin_of_safety : ℚ
deriving DecidableEq

/-- Constructor `DiscountedCashFlowModel.__init__`: clamps the discount rate to `≥ 0` and
the margin of safety to `[0, 0.99]`. -/
def DiscountedCashFlowModel.init (discount_rate margin_of_safety : ℚ) :
    DiscountedCashFlowModel :=
  { discount_rate := max discount_rate 0
    margin_of_safety := max (min margin_of_safety (99/100)) 0 }

/-- The projected cash-flow list: the loop `value = value * (1 + rate)`
recording each compounded value (line 94-96). -/
def projectCashflows (value : ℚ) : List ℚ → List ℚ
  | [] => []
  | rate :: rest => (value * (1 + rate)) :: projectCashflows (value * (1 + rate)) rest

/-- The discounted cash-flow list: each projected value divided by
`(1 + discount_rate) ** idx`, `idx` counting from the given start (line 97-98). -/
def discountCashflows (discount_rate : ℚ) : ℕ → List ℚ → List ℚ
  | _, [] => []
  | idx, c :: rest =>
    (c / (1 + discount_rate) ^ idx) :: discountCashflows discount_rate (idx + 1) rest

/-- Growth-rate warnings produced inside the projection loop (lines 99-102),
in loop order: per year, the high-growth warning then the steep-decline one. -/
def rateWarnings (name : String) (rates : List ℚ) : List String :=
  (rates.map (fun rate =>
    (if (15/100 : ℚ) < rate then
      [name ++ ": Growth rate " ++ formatPct rate ++ " exceeds conservative range."]
     else []) ++
    (if rate < -(1/10 : ℚ) then
      [name ++ ": Growth rate " ++ formatPct rate ++ " implies steep decline."]
     else []))).flatten

/-- Terminal-multiple warnings (lines 111-114). -/
def multipleWarnings (name : String) (terminal_multiple : ℚ) : List String :=
  (if (20 : ℚ) < terminal_multiple then
    [name ++ ": Terminal multiple " ++ format1f terminal_multiple ++ " is aggressive."]
   else []) ++
  (if terminal_multiple < (5 : ℚ) then
    [name ++ ": Terminal multiple " ++ format1f terminal_multiple ++ " is unusually low."]
   else [])

/-- The `ScenarioValuation` built on the success path of `_evaluate_scenario`
(lines 90-130). -/
def scenarioValuationOf (m : DiscountedCashFlowModel)
    (base_cashflow_per_share current_price : ℚ) (scenario : ScenarioProfile) :
    ScenarioValuation :=
  let cashflows := projectCashflows base_cashflow_per_share scenario.growth_rates
  let discounted := discountCashflows m.discount_rate 1 cashflows
  let terminal_value := cashflows.getLastD 0 * scenario.terminal_multiple
  let discounted_terminal :=
    terminal_value / (1 + m.discount_rate) ^ scenario.growth_rates.length
  let intrinsic_value := discounted.sum + discounted_terminal
  let buy_price := intrinsic_value * (1 - m.margin_of_safety)
  { name := scenario.name
    intrinsic_value := intrinsic_value
    buy_price := buy_price
    upside := if current_price ≠ 0 then intrinsic_value / current_price - 1 else 0
    downside := if current_price ≠ 0 then buy_price / current_price - 1 else 0
    margin_of_safety_pct := m.margin_of_safety
    effective_growth_rates := scenario.growth_rates
    terminal_multiple := scenario.terminal_multiple
    cashflows := cashflows
    discounted_cashflows := discounted
    terminal_value := terminal_value
    discounted_terminal_value := discounted_terminal
    warnings := dedupFirst (rateWarnings scenario.name scenario.growth_rates ++
      multipleWarnings scenario.name scenario.terminal_multiple) }

/-- Method `DiscountedCashFlowModel._evaluate_scenario` (lines 80-130): raises
`ValueError` when the growth-rate list is empty, otherwise returns the
per-scenario valuation. -/
def DiscountedCashFlowModel.evaluate_scenario (m : DiscountedCashFlowModel)
    (base_cashflow_per_share current_price : ℚ) (scenario : ScenarioProfile) :
    Except String ScenarioValuation :=
  if scenario.growth_rates = [] then
    .error "Growth rates are required for at least one forecast year."
  else
    .ok (scenarioValuationOf m base_cashflow_per_share current_price scenario)

/-- Line 54: `base_cashflow / shares_outstanding if shares_outstanding else
base_cashflow` — Python float truthiness divides whenever the share count is
nonzero. -/
def perShareBase (base_cashflow shares_outstanding : ℚ) : ℚ :=
  if shares_outstanding ≠ 0 then base_cashflow / shares_outstanding else base_cashflow

/-- Lines 62-66: normalize scenario probabilities; uniform `1 / len(scenarios)`
when the raw sum is `≤ 0` (the comprehension never divides when the scenario
list is empty). -/
def normalizedProbabilities (scenarios : List ScenarioProfile) : List ℚ :=
  let total := (scenarios.map (fun s => s.probability)).sum
  if total ≤ 0 then scenarios.map (fun _ => 1 / (scenarios.length : ℚ))
  else scenarios.map (fun s => s.probability / total)

/-- The `AggregateValuation` built by `evaluate` once every scenario
succeeded (lines 62-78). -/
def aggregateOf (m : DiscountedCashFlowModel) (current_price : ℚ)
    (scenarios : List ScenarioProfile) (results : List ScenarioValuation) :
    AggregateValuation :=
  let probabilities := normalizedProbabilities scenarios
  let weighted_intrinsic :=
    ((results.zip probabilities).map (fun vp => vp.1.intrinsic_value * vp.2)).sum
  { scenario_results := results
    weighted_intrinsic_value := weighted_intrinsic
    margin_of_safety_buy_price := weighted_intrinsic * (1 - m.margin_of_safety)
    current_price := current_price
    metadata := [("discount_rate", m.discount_rate), ("margin_of_safety", m.margin_of_safety)]
    warnings := dedupFirst ((results.map (fun v => v.warnings)).flatten) }

/-- Method `DiscountedCashFlowModel.evaluate` (lines 47-78). -/
def DiscountedCashFlowModel.evaluate (m : DiscountedCashFlowModel)
    (base_cashflow current_price shares_outstanding : ℚ)
    (scenarios : List ScenarioProfile) : Except String AggregateValuation :=
  match mapExcept
      (m.evaluate_scenario (perShareBase base_cashflow shares_outstanding) current_price)
      scenarios with
  | .error e => .error e
  | .ok results => .ok (aggregateOf m current_price scenarios results)

/-- Source `class DividendDiscountModel(DiscountedCashFlowModel): pass` — the subclass
adds nothing; it is the same type. -/
def DividendDiscountModel := DiscountedCashFlowModel

/-- Inherited constructor. -/
def DividendDiscountModel.init (discount_rate margin_of_safety : ℚ) :
    DividendDiscountModel :=
  DiscountedCashFlowModel.init discount_rate margin_of_safety

/-- Inherited `evaluate`. -/
def DividendDiscountModel.evaluate (m : DividendDiscountModel)
    (base_cashflow current_price shares_outstanding : ℚ)
    (scenarios : List ScenarioProfile) : Except String AggregateValuation :=
  DiscountedCashFlowModel.evaluate m base_cashflow current_price shares_outstanding scenarios

/-! ### Basic inversion lemmas -/

/-- The scenario evaluator succeeds exactly on non-empty growth-rate lists,
returning the valuation built by `scenarioValuationOf`. -/
lemma evaluate_scenario_ok_iff (m : DiscountedCashFlowModel) (b cp : ℚ)
    (s : ScenarioProfile) (v : ScenarioValuation) :
    m.evaluate_scenario b cp s = .ok v ↔
      s.growth_rates ≠ [] ∧ v = scenarioValuationOf m b cp s := by
  unfold DiscountedCashFlowModel.evaluate_scenario
  by_cases h : s.growth_rates = [] <;> simp [h, eq_comm]

/-- The scenario evaluator fails exactly on the empty growth-rate list, with
the fixed error message. -/
lemma evaluate_scenario_error_iff (m : DiscountedCashFlowModel) (b cp : ℚ)
    (s : ScenarioProfile) (e : String) :
    m.evaluate_scenario b cp s = .error e ↔
      s.growth_rates = [] ∧ e = "Growth rates are required for at least one forecast year." := by
  unfold DiscountedCashFlowModel.evaluate_scenario
  by_cases h : s.growth_rates = [] <;> simp [h, eq_comm]

/-- The scenario loop fails exactly when some scenario has an empty
growth-rate list, and the failure carries the fixed message. -/
lemma mapExcept_scenarios_error_iff (m : DiscountedCashFlowModel) (b cp : ℚ)
    (scs : List ScenarioProfile) (e : String) :
    mapExcept (m.evaluate_scenario b cp) scs = .error e ↔
      (∃ s ∈ scs, s.growth_rates = []) ∧
        e = "Growth rates are required for at least one forecast year." := by
  induction scs generalizing e with
  | nil => simp [mapExcept]
  | cons s rest ih =>
    by_cases h : s.growth_rates = []
    · have hs : m.evaluate_scenario b cp s =
          .error "Growth rates are required for at least one forecast year." := by
        rw [evaluate_scenario_error_iff]; exact ⟨h, rfl⟩
      simp only [mapExcept, hs]
      constructor
      · rintro he
        cases he
        exact ⟨⟨s, by simp, h⟩, rfl⟩
      · rintro ⟨-, rfl⟩; rfl
    · have hs : m.evaluate_scenario b cp s = .ok (scenarioValuationOf m b cp s) := by
        rw [evaluate_scenario_ok_iff]; exact ⟨h, rfl⟩
      simp only [mapExcept, hs]
      cases hrest : mapExcept (m.evaluate_scenario b cp) rest with
      | error e2 =>
        have h2 := (ih e2).mp hrest
        simp only [List.mem_cons]
        constructor
        · rintro he; cases he
          exact ⟨⟨h2.1.choose, Or.inr h2.1.choose_spec.1, h2.1.choose_spec.2⟩, h2.2⟩
        · rintro ⟨-, rfl⟩
          rw [h2.2]
      | ok results =>
        simp only [List.mem_cons]
        constructor
        · rintro he; cases he
        · rintro ⟨⟨s2, hs2, hs2e⟩, rfl⟩
          rcases hs2 with rfl | hs2
          · exact absurd hs2e h
          · have hcontr : mapExcept (m.evaluate_scenario b cp) rest =
                .error "Growth rates are required for at least one forecast year." :=
              (ih _).mpr ⟨⟨s2, hs2, hs2e⟩, rfl⟩
            rw [hrest] at hcontr
            cases hcontr

/-- Method `evaluate` fails with a given message exactly when its scenario loop
does. -/
lemma evaluate_error_iff (m : DiscountedCashFlowModel) (b cp sh : ℚ)
    (scs : List ScenarioProfile) (e : String) :
    m.evaluate b cp sh scs = .error e ↔
      mapExcept (m.evaluate_scenario (perShareBase b sh) cp) scs = .error e := by
  unfold DiscountedCashFlowModel.evaluate
  cases h : mapExcept (m.evaluate_scenario (perShareBase b sh) cp) scs <;> simp

/-! ### Claim theorems: C6, C9, C10 -/

/-- C6: `evaluate` fails with an `InvalidInput` condition (a `ValueError` in
the source) if and only if some scenario has a zero-length growth-rate
sequence; the failure carries the descriptive message, and — being an
`Except.error` — no `AggregateValuation` is produced. -/
theorem c6_invalid_input_iff (m : DiscountedCashFlowModel) (b cp sh : ℚ)
    (scs : List ScenarioProfile) :
    ((∃ s ∈ scs, s.growth_rates = []) ↔ ∃ e, m.evaluate b cp sh scs = .error e) ∧
    (∀ e, m.evaluate b cp sh scs = .error e →
      e = "Growth rates are required for at least one forecast year.") := by
  constructor
  · constructor
    · intro hex
      exact ⟨_, (evaluate_error_iff m b cp sh scs _).mpr
        ((mapExcept_scenarios_error_iff m _ cp scs _).mpr ⟨hex, rfl⟩)⟩
    · rintro ⟨e, he⟩
      exact ((mapExcept_scenarios_error_iff m _ cp scs e).mp
        ((evaluate_error_iff m b cp sh scs e).mp he)).1
  · intro e he
    exact ((mapExcept_scenarios_error_iff m _ cp scs e).mp
      ((evaluate_error_iff m b cp sh scs e).mp he)).2

/-- Witness for C6: a scenario with an empty growth-rate list makes
`evaluate` fail. -/
theorem c6_invalid_input_iff_witness :
    ∃ e, DiscountedCashFlowModel.evaluate ⟨1/10, 3/10⟩ 10 100 1
      [⟨"Empty", [], 12, 1⟩] = .error e :=
  (c6_invalid_input_iff ⟨1/10, 3/10⟩ 10 100 1 [⟨"Empty", [], 12, 1⟩]).1.mp
    ⟨⟨"Empty", [], 12, 1⟩, by simp, rfl⟩

/-- C9: `DividendDiscountModel.evaluate` returns exactly the same
`AggregateValuation` as `DiscountedCashFlowModel.evaluate` on the same
constructor arguments and inputs — the subclass adds nothing. -/
theorem c9_ddm_is_dcf (discount_rate margin_of_safety base_cashflow current_price
    shares_outstanding : ℚ) (scenarios : List ScenarioProfile) :
    DividendDiscountModel.evaluate (DividendDiscountModel.init discount_rate margin_of_safety)
        base_cashflow current_price shares_outstanding scenarios =
      DiscountedCashFlowModel.evaluate
        (DiscountedCashFlowModel.init discount_rate margin_of_safety)
        base_cashflow current_price shares_outstanding scenarios := rfl

/-- C10: `evaluate` on an empty scenario list does not fail and returns an
aggregate with no scenario results, zero weighted intrinsic value, zero buy
price and no warnings; the uniform-probability branch never divides by the
zero list length because the mapping ranges over the empty list. -/
theorem c10_empty_scenarios (m : DiscountedCashFlowModel) (b cp sh : ℚ) :
    m.evaluate b cp sh [] =
      .ok { scenario_results := []
            weighted_intrinsic_value := 0
            margin_of_safety_buy_price := 0
            current_price := cp
            metadata := [("discount_rate", m.discount_rate),
                         ("margin_of_safety", m.margin_of_safety)]
            warnings := [] } := by
  simp [DiscountedCashFlowModel.evaluate, mapExcept, aggregateOf,
    normalizedProbabilities, dedupFirst]

/-! ### Closed-form lemmas for the constant-growth scenario (C1) -/

/-- Compounding a constant growth rate produces the geometric sequence
`base * (1 + g) ^ (i + 1)`. -/
lemma projectCashflows_replicate (g : ℚ) :
    ∀ (n : ℕ) (base : ℚ), projectCashflows base (List.replicate n g) =
      (List.range n).map (fun i => base * (1 + g) ^ (i + 1)) := by
  intro n
  induction n with
  | zero => intro base; simp [projectCashflows]
  | succ n ih =>
    intro base
    rw [List.replicate_succ]
    simp only [projectCashflows]
    rw [ih (base * (1 + g)), List.range_succ_eq_map]
    simp only [List.map_cons, List.map_map]
    have hfun : (fun i => base * (1 + g) * (1 + g) ^ (i + 1)) =
        ((fun i => base * (1 + g) ^ (i + 1)) ∘ Nat.succ) := by
      funext i
      simp only [Function.comp, Nat.succ_eq_add_one]
      ring
    rw [hfun]
    congr 1
    ring

/-- Discounting a list given as a map over `range` divides each entry by the
discount factor at its running index. -/
lemma discountCashflows_map_range (dr : ℚ) :
    ∀ (n k : ℕ) (f : ℕ → ℚ),
      discountCashflows dr k ((List.range n).map f) =
        (List.range n).map (fun i => f i / (1 + dr) ^ (k + i)) := by
  intro n
  induction n with
  | zero => intro k f; simp [discountCashflows]
  | succ n ih =>
    intro k f
    rw [List.range_succ_eq_map]
    simp only [List.map_cons, List.map_map]
    simp only [discountCashflows]
    rw [ih (k + 1) (f ∘ Nat.succ)]
    have hfun : (fun i => (f ∘ Nat.succ) i / (1 + dr) ^ (k + 1 + i)) =
        ((fun i => f i / (1 + dr) ^ (k + i)) ∘ Nat.succ) := by
      funext i
      simp only [Function.comp, Nat.succ_eq_add_one]
      have hik : k + 1 + i = k + (i + 1) := by omega
      rw [hik]
    rw [hfun]
    congr 1

/-- List sum over `range` equals the `Finset.range` sum. -/
lemma list_range_map_sum (f : ℕ → ℚ) (n : ℕ) :
    ((List.range n).map f).sum = ∑ i ∈ Finset.range n, f i := by
  induction n with
  | zero => simp
  | succ n ih =>
    rw [List.range_succ, List.map_append, List.sum_append, Finset.sum_range_succ, ih]
    simp

/-- A sum over `Icc 1 n` re-indexed from zero. -/
lemma sum_Icc_one (f : ℕ → ℚ) (n : ℕ) :
    ∑ i ∈ Finset.Icc 1 n, f i = ∑ i ∈ Finset.range n, f (i + 1) := by
  induction n with
  | zero => simp
  | succ n ih =>
    rw [Finset.sum_Icc_succ_top (by omega : 1 ≤ n + 1), ih, Finset.sum_range_succ]

/-- Last element of a non-trivial map over `range`. -/
lemma getLastD_map_range (f : ℕ → ℚ) (n : ℕ) (hn : 1 ≤ n) :
    ((List.range n).map f).getLastD 0 = f (n - 1) := by
  obtain ⟨k, rfl⟩ : ∃ k, n = k + 1 := ⟨n - 1, by omega⟩
  rw [List.range_succ, List.map_append]
  simp

/-- C1: for a single scenario with constant growth rate `g` repeated over
`N ≥ 1` years, terminal multiple `mult`, nonnegative discount rate and
per-share base `base`, the intrinsic value computed by `_evaluate_scenario`
equals the closed-form discounted sum
`Σ_{i=1..N} base·(1+g)^i/(1+r)^i + base·(1+g)^N·mult/(1+r)^N`. -/
theorem c1_closed_form (m : DiscountedCashFlowModel) (hr : 0 ≤ m.discount_rate)
    (base g mult p cp : ℚ) (nm : String) (N : ℕ) (hN : 1 ≤ N)
    (v : ScenarioValuation)
    (hv : m.evaluate_scenario base cp ⟨nm, List.replicate N g, mult, p⟩ = .ok v) :
    v.intrinsic_value =
      (∑ i ∈ Finset.Icc 1 N, base * (1 + g) ^ i / (1 + m.discount_rate) ^ i) +
        base * (1 + g) ^ N * mult / (1 + m.discount_rate) ^ N := by
  rw [evaluate_scenario_ok_iff] at hv
  obtain ⟨-, rfl⟩ := hv
  simp only [scenarioValuationOf, List.length_replicate]
  rw [projectCashflows_replicate g N base,
    discountCashflows_map_range m.discount_rate N 1 (fun i => base * (1 + g) ^ (i + 1)),
    list_range_map_sum, getLastD_map_range _ _ hN, sum_Icc_one]
  have hN1 : N - 1 + 1 = N := by omega
  rw [hN1]
  congr 1
  exact Finset.sum_congr rfl (fun i _ => by rw [Nat.add_comm 1 i])

/-- Fallback `ScenarioValuation` used to extract concrete success values. -/
def defaultScenarioValuation : ScenarioValuation :=
  ⟨"", 0, 0, 0, 0, 0, [], 0, [], [], 0, 0, []⟩

/-- The spec §8 worked example scenario: 5% growth for 3 years, multiple 12. -/
def c1Scenario : ScenarioProfile := ⟨"Base", List.replicate 3 (1/20), 12, 1⟩

/-- Concrete valuation of the worked example under r = 10%, margin 30%. -/
def c1Valuation : ScenarioValuation :=
  ((DiscountedCashFlowModel.evaluate_scenario ⟨1/10, 3/10⟩ 10 100 c1Scenario).toOption).getD
    defaultScenarioValuation

/-- Witness for C1 at the worked example of spec section 8. -/
theorem c1_closed_form_witness :
    DiscountedCashFlowModel.evaluate_scenario ⟨1/10, 3/10⟩ 10 100 c1Scenario = .ok c1Valuation ∧
    c1Valuation.intrinsic_value =
      (∑ i ∈ Finset.Icc 1 3, 10 * (1 + 1/20) ^ i / (1 + (1/10 : ℚ)) ^ i) +
        10 * (1 + 1/20) ^ 3 * 12 / (1 + (1/10 : ℚ)) ^ 3 := by
  have h : DiscountedCashFlowModel.evaluate_scenario ⟨1/10, 3/10⟩ 10 100 c1Scenario =
      .ok c1Valuation := by rfl
  exact ⟨h, c1_closed_form ⟨1/10, 3/10⟩ (by norm_num) 10 (1/20) 12 1 100 "Base" 3
    (by norm_num) c1Valuation h⟩

/-! ### Margin-of-safety buy price (C2) -/

/-- On the success path the per-scenario buy price is the intrinsic value
scaled by `1 - margin_of_safety` (line 108). -/
lemma evaluate_scenario_buy_price (m : DiscountedCashFlowModel) (b cp : ℚ)
    (s : ScenarioProfile) (v : ScenarioValuation)
    (hv : m.evaluate_scenario b cp s = .ok v) :
    v.buy_price = v.intrinsic_value * (1 - m.margin_of_safety) := by
  rw [evaluate_scenario_ok_iff] at hv
  obtain ⟨-, rfl⟩ := hv
  rfl

/-- On the success path the aggregate buy price is the weighted intrinsic
value scaled by `1 - margin_of_safety` (line 69). -/
lemma evaluate_buy_price (m : DiscountedCashFlowModel) (b cp sh : ℚ)
    (scs : List ScenarioProfile) (agg : AggregateValuation)
    (h : m.evaluate b cp sh scs = .ok agg) :
    agg.margin_of_safety_buy_price =
      agg.weighted_intrinsic_value * (1 - m.margin_of_safety) := by
  unfold DiscountedCashFlowModel.evaluate at h
  cases hm : mapExcept (m.evaluate_scenario (perShareBase b sh) cp) scs with
  | error e => rw [hm] at h; cases h
  | ok results =>
    rw [hm] at h
    simp only [Except.ok.injEq] at h
    subst h
    rfl

/-- C2 counterexample input: zero growth for one year, terminal multiple 12. -/
def c2Scenario : ScenarioProfile := ⟨"S", [0], 12, 1⟩

/-- Concrete scenario valuation of `c2Scenario` at base `-1`, margin `1/2`. -/
def c2NegValuation : ScenarioValuation :=
  ((DiscountedCashFlowModel.evaluate_scenario ⟨0, 1/2⟩ (-1) 1 c2Scenario).toOption).getD
    defaultScenarioValuation

/-- C2 is false as stated: with a negative per-share base the intrinsic value
is negative, and with margin of safety `1/2 ∈ [0, 0.99)` the buy price is
strictly greater than the intrinsic value. -/
theorem c2_counterexample :
    DiscountedCashFlowModel.evaluate_scenario ⟨0, 1/2⟩ (-1) 1 c2Scenario = .ok c2NegValuation ∧
    (0 : ℚ) ≤ 1/2 ∧ (1/2 : ℚ) < 99/100 ∧
    c2NegValuation.intrinsic_value < c2NegValuation.buy_price := by
  refine ⟨rfl, by norm_num, by norm_num, ?_⟩
  rw [show c2NegValuation = scenarioValuationOf ⟨0, 1/2⟩ (-1) 1 c2Scenario from rfl]
  norm_num [scenarioValuationOf, projectCashflows, discountCashflows, c2Scenario]

/-- C2 amended: whenever the margin-of-safety fraction lies in `[0, 0.99)`
and the intrinsic value is nonnegative, the per-scenario buy price is at most
the intrinsic value, with equality (unconditionally) at margin `0`; likewise
for the aggregate buy price against the weighted intrinsic value. -/
theorem c2_margin_buy_price (dr mos : ℚ) (h0 : 0 ≤ mos) (h1 : mos < 99/100) :
    (∀ b cp s v, DiscountedCashFlowModel.evaluate_scenario ⟨dr, mos⟩ b cp s = .ok v →
      (0 ≤ v.intrinsic_value → v.buy_price ≤ v.intrinsic_value) ∧
      (mos = 0 → v.buy_price = v.intrinsic_value)) ∧
    (∀ b cp sh scs agg, DiscountedCashFlowModel.evaluate ⟨dr, mos⟩ b cp sh scs = .ok agg →
      (0 ≤ agg.weighted_intrinsic_value →
        agg.margin_of_safety_buy_price ≤ agg.weighted_intrinsic_value) ∧
      (mos = 0 → agg.margin_of_safety_buy_price = agg.weighted_intrinsic_value)) := by
  constructor
  · intro b cp s v hv
    have hb := evaluate_scenario_buy_price ⟨dr, mos⟩ b cp s v hv
    constructor
    · intro hi
      rw [hb]
      exact mul_le_of_le_one_right hi (by linarith)
    · intro hz
      rw [hb, hz]
      ring
  · intro b cp sh scs agg hagg
    have hb := evaluate_buy_price ⟨dr, mos⟩ b cp sh scs agg hagg
    constructor
    · intro hi
      rw [hb]
      exact mul_le_of_le_one_right hi (by linarith)
    · intro hz
      rw [hb, hz]
      ring

/-- Concrete positive-base scenario valuation for the C2 witness. -/
def c2PosValuation : ScenarioValuation :=
  ((DiscountedCashFlowModel.evaluate_scenario ⟨1/10, 3/10⟩ 10 100 c2Scenario).toOption).getD
    defaultScenarioValuation

/-- Fallback `AggregateValuation` used to extract concrete success values. -/
def defaultAggregateValuation : AggregateValuation := ⟨[], 0, 0, 0, [], []⟩

/-- Concrete aggregate valuation for the C2 witness. -/
def c2Aggregate : AggregateValuation :=
  ((DiscountedCashFlowModel.evaluate ⟨1/10, 3/10⟩ 10 100 1 [c2Scenario]).toOption).getD
    defaultAggregateValuation

/-- Witness for the amended C2 at margin 30%, base 10. -/
theorem c2_margin_buy_price_witness :
    (DiscountedCashFlowModel.evaluate_scenario ⟨1/10, 3/10⟩ 10 100 c2Scenario =
        .ok c2PosValuation ∧
      c2PosValuation.buy_price ≤ c2PosValuation.intrinsic_value) ∧
    (DiscountedCashFlowModel.evaluate ⟨1/10, 3/10⟩ 10 100 1 [c2Scenario] = .ok c2Aggregate ∧
      c2Aggregate.margin_of_safety_buy_price ≤ c2Aggregate.weighted_intrinsic_value) := by
  have h1 : DiscountedCashFlowModel.evaluate_scenario ⟨1/10, 3/10⟩ 10 100 c2Scenario =
      .ok c2PosValuation := rfl
  have h2 : DiscountedCashFlowModel.evaluate ⟨1/10, 3/10⟩ 10 100 1 [c2Scenario] =
      .ok c2Aggregate := rfl
  have hc := c2_margin_buy_price (1/10) (3/10) (by norm_num) (by norm_num)
  have hpos : 0 ≤ c2PosValuation.intrinsic_value := by
    rw [show c2PosValuation = scenarioValuationOf ⟨1/10, 3/10⟩ 10 100 c2Scenario from rfl]
    norm_num [scenarioValuationOf, projectCashflows, discountCashflows, c2Scenario]
  have haggpos : 0 ≤ c2Aggregate.weighted_intrinsic_value := by
    rw [show c2Aggregate = aggregateOf ⟨1/10, 3/10⟩ 100 [c2Scenario]
        [scenarioValuationOf ⟨1/10, 3/10⟩ (perShareBase 10 1) 100 c2Scenario] from rfl]
    norm_num [aggregateOf, normalizedProbabilities, scenarioValuationOf, projectCashflows,
      discountCashflows, perShareBase, c2Scenario]
  exact ⟨⟨h1, (hc.1 10 100 c2Scenario c2PosValuation h1).1 hpos⟩,
         ⟨h2, (hc.2 10 100 1 [c2Scenario] c2Aggregate h2).1 haggpos⟩⟩

/-! ### Probability normalization (C3) -/

/-- A list sum of nonpositive rationals is nonpositive. -/
lemma list_sum_nonpos (l : List ℚ) (h : ∀ x ∈ l, x ≤ 0) : l.sum ≤ 0 := by
  induction l with
  | nil => simp
  | cons x xs ih =>
    rw [List.sum_cons]
    have hx := h x (by simp)
    have hxs := ih (fun y hy => h y (by simp [hy]))
    linarith

/-- Dividing each element by a constant divides the sum. -/
lemma list_sum_div (l : List ℚ) (c : ℚ) : (l.map (fun x => x / c)).sum = l.sum / c := by
  induction l with
  | nil => simp
  | cons x xs ih => simp [ih, add_div]

/-- C3 amended: for a non-empty scenario list the normalized probability
weights sum to exactly 1, and they equal the uniform distribution `1/n`
whenever every supplied probability is `≤ 0`. -/
theorem c3_probabilities (scs : List ScenarioProfile) (h : scs ≠ []) :
    (normalizedProbabilities scs).sum = 1 ∧
    ((∀ s ∈ scs, s.probability ≤ 0) →
      normalizedProbabilities scs = scs.map (fun _ => 1 / (scs.length : ℚ))) := by
  have hlen : (scs.length : ℚ) ≠ 0 := by
    simp only [ne_eq, Nat.cast_eq_zero, List.length_eq_zero]
    exact h
  constructor
  · unfold normalizedProbabilities
    by_cases ht : (scs.map (fun s => s.probability)).sum ≤ 0
    · rw [if_pos ht]
      have : scs.map (fun _ : ScenarioProfile => 1 / (scs.length : ℚ)) =
          List.replicate scs.length (1 / (scs.length : ℚ)) := by
        simp [List.map_const']
      rw [this, List.sum_replicate, nsmul_eq_mul]
      field_simp
    · rw [if_neg ht]
      have hmap : scs.map (fun s => s.probability / (scs.map (fun s => s.probability)).sum) =
          (scs.map (fun s => s.probability)).map
            (fun x => x / (scs.map (fun s => s.probability)).sum) := by
        rw [List.map_map]
        rfl
      rw [hmap, list_sum_div, div_self (by linarith [lt_of_not_le ht])]
  · intro hall
    unfold normalizedProbabilities
    rw [if_pos]
    apply list_sum_nonpos
    intro x hx
    rw [List.mem_map] at hx
    obtain ⟨s, hs, rfl⟩ := hx
    exact hall s hs

/-- Two equally weighted scenarios with positive probabilities. -/
def c3ScenarioA : ScenarioProfile := ⟨"A", [1/20], 12, 1/2⟩

/-- Second scenario for the C3 counterexample. -/
def c3ScenarioB : ScenarioProfile := ⟨"B", [1/20], 12, 1/2⟩

/-- C3 is false as stated ("exactly when"): equal positive probabilities also
normalize to the uniform distribution, although not every supplied
probability is `≤ 0`. -/
theorem c3_counterexample :
    normalizedProbabilities [c3ScenarioA, c3ScenarioB] =
      [c3ScenarioA, c3ScenarioB].map
        (fun _ => 1 / (([c3ScenarioA, c3ScenarioB].length : ℚ))) ∧
    ¬ (∀ s ∈ [c3ScenarioA, c3ScenarioB], s.probability ≤ 0) := by
  constructor
  · norm_num [normalizedProbabilities, c3ScenarioA, c3ScenarioB]
  · intro hall
    have hA := hall c3ScenarioA (by simp)
    norm_num [c3ScenarioA] at hA

/-- Zero-probability scenarios for the C3 witness. -/
def c3ZeroA : ScenarioProfile := ⟨"A", [1/20], 12, 0⟩

/-- Second zero-probability scenario for the C3 witness. -/
def c3ZeroB : ScenarioProfile := ⟨"B", [1/20], 12, 0⟩

/-- Witness for the amended C3 on two zero-probability scenarios. -/
theorem c3_probabilities_witness :
    (normalizedProbabilities [c3ZeroA, c3ZeroB]).sum = 1 ∧
    normalizedProbabilities [c3ZeroA, c3ZeroB] =
      [c3ZeroA, c3ZeroB].map (fun _ => 1 / (([c3ZeroA, c3ZeroB].length : ℚ))) := by
  have hc := c3_probabilities [c3ZeroA, c3ZeroB] (by simp)
  exact ⟨hc.1, hc.2 (by norm_num [c3ZeroA, c3ZeroB])⟩

/-! ### Per-share base (C4) -/

/-- C4 counterexample scenario. -/
def c4Scenario : ScenarioProfile := ⟨"S", [0], 10, 1⟩

/-- C4 is false as stated: for the negative share count `-2` the code divides
(Python float truthiness tests nonzero, not positive), so the result differs
from the raw-base behaviour that the zero share count produces. -/
theorem c4_counterexample :
    perShareBase 10 (-2) = -5 ∧ (-5 : ℚ) ≠ 10 ∧
    (DiscountedCashFlowModel.evaluate ⟨0, 0⟩ 10 1 (-2) [c4Scenario]).toOption.map
        (fun a => a.scenario_results.map (fun v => v.cashflows)) = some [[-5]] ∧
    (DiscountedCashFlowModel.evaluate ⟨0, 0⟩ 10 1 0 [c4Scenario]).toOption.map
        (fun a => a.scenario_results.map (fun v => v.cashflows)) = some [[10]] := by
  refine ⟨by norm_num [perShareBase], by norm_num, ?_, ?_⟩
  · rw [show DiscountedCashFlowModel.evaluate ⟨0, 0⟩ 10 1 (-2) [c4Scenario] =
        .ok (aggregateOf ⟨0, 0⟩ 1 [c4Scenario]
          [scenarioValuationOf ⟨0, 0⟩ (perShareBase 10 (-2)) 1 c4Scenario]) from rfl]
    norm_num [aggregateOf, scenarioValuationOf, projectCashflows, perShareBase, c4Scenario]
    exact ⟨_, rfl, rfl⟩
  · rw [show DiscountedCashFlowModel.evaluate ⟨0, 0⟩ 10 1 0 [c4Scenario] =
        .ok (aggregateOf ⟨0, 0⟩ 1 [c4Scenario]
          [scenarioValuationOf ⟨0, 0⟩ (perShareBase 10 0) 1 c4Scenario]) from rfl]
    norm_num [aggregateOf, scenarioValuationOf, projectCashflows, perShareBase, c4Scenario]
    exact ⟨_, rfl, rfl⟩

/-- C4 amended: the per-share base equals `base_cashflow / shares_outstanding`
whenever `shares_outstanding ≠ 0` (in particular when it is positive), equals
the raw `base_cashflow` only when `shares_outstanding = 0`, and `evaluate`
uses exactly this per-share base for every scenario: evaluating with it and a
share count of 1 gives the same aggregate. -/
theorem c4_per_share_base (b sh : ℚ) (m : DiscountedCashFlowModel) (cp : ℚ)
    (scs : List ScenarioProfile) :
    (sh ≠ 0 → perShareBase b sh = b / sh) ∧
    (perShareBase b 0 = b) ∧
    (m.evaluate b cp sh scs = m.evaluate (perShareBase b sh) cp 1 scs) := by
  refine ⟨fun hsh => ?_, ?_, ?_⟩
  · rw [perShareBase, if_pos hsh]
  · rw [perShareBase, if_neg (by simp)]
  · unfold DiscountedCashFlowModel.evaluate
    rw [show perShareBase (perShareBase b sh) 1 = perShareBase b sh from by
      simp [perShareBase]]

/-- Witness for the amended C4 at concrete share counts 4 and 0. -/
theorem c4_per_share_base_witness :
    perShareBase 10 4 = 10 / 4 ∧ perShareBase 10 0 = 10 ∧
    DiscountedCashFlowModel.evaluate ⟨0, 0⟩ 10 1 4 [c4Scenario] =
      DiscountedCashFlowModel.evaluate ⟨0, 0⟩ (perShareBase 10 4) 1 1 [c4Scenario] := by
  have hc := c4_per_share_base 10 4 ⟨0, 0⟩ 1 [c4Scenario]
  have hc0 := c4_per_share_base 10 0 ⟨0, 0⟩ 1 [c4Scenario]
  exact ⟨hc.1 (by norm_num), hc0.2.1, hc.2.2⟩

/-! ### Growth-series normalization (valuation_service.py lines 139-152, C5) -/

/-- The dynamically typed `raw` argument of `_normalize_growth_series`:
a numeric scalar, a list whose entries either coerce to a number via
`float(value)` (`some q`) or raise `TypeError`/`ValueError` (`none`), or any
other value (None, string, dict, ...). -/
inductive GrowthRaw where
  | scalar (x : ℚ)
  | list (entries : List (Option ℚ))
  | other
deriving DecidableEq

/-- Python slice `l[:k]`: a negative stop counts from the end of the list. -/
def pySliceTo (l : List ℚ) (k : ℤ) : List ℚ :=
  if 0 ≤ k then l.take k.toNat else l.take ((l.length : ℤ) + k).toNat

/-- Function `_normalize_growth_series(raw, years)`: scalars replicate to
`max(years, 1)` entries; a non-empty list is coerced entrywise (failures
become 0), padded by repeating its final element while shorter than `years`,
then sliced to `years`; anything else yields `max(years, 1)` zeros. -/
def normalize_growth_series (raw : GrowthRaw) (years : ℤ) : List ℚ :=
  match raw with
  | .scalar x => List.replicate (max years 1).toNat x
  | .list entries =>
    if entries.isEmpty then List.replicate (max years 1).toNat 0
    else
      let cleaned := entries.map (fun e => e.getD 0)
      let padded :=
        cleaned ++ List.replicate (years.toNat - cleaned.length) (cleaned.getLastD 0)
      pySliceTo padded years
  | .other => List.replicate (max years 1).toNat 0

/-- C5 is false as stated: with horizon `years = 0` a scalar input yields one
entry (`max(years, 1) = 1`), not "exactly `years` = 0 identical entries". -/
theorem c5_counterexample :
    normalize_growth_series (GrowthRaw.scalar (1/20)) 0 = [1/20] ∧
    (normalize_growth_series (GrowthRaw.scalar (1/20)) 0).length ≠ 0 := by
  constructor
  · rfl
  · intro h
    simp [normalize_growth_series] at h

/-- C5 amended: for horizons `years ≥ 1` a scalar expands to exactly `years`
identical entries (and to a single entry when `years ≤ 0`); a non-empty
explicit list is truncated to `years` entries when at least as long, and
right-padded by repeating its final element to length `years` when shorter;
non-numeric entries coerce to 0 (the `Option.getD 0` in the cleaned list). -/
theorem c5_normalize_growth (x : ℚ) (entries : List (Option ℚ)) (years : ℤ)
    (hne : entries ≠ []) (hy : 1 ≤ years) :
    (normalize_growth_series (.scalar x) years = List.replicate years.toNat x) ∧
    (∀ yneg : ℤ, yneg ≤ 0 → normalize_growth_series (.scalar x) yneg = [x]) ∧
    (years.toNat ≤ entries.length →
      normalize_growth_series (.list entries) years =
        (entries.map (fun e => e.getD 0)).take years.toNat) ∧
    (entries.length ≤ years.toNat →
      normalize_growth_series (.list entries) years =
        entries.map (fun e => e.getD 0) ++
          List.replicate (years.toNat - entries.length)
            ((entries.map (fun e => e.getD 0)).getLastD 0)) := by
  obtain ⟨e0, erest, rfl⟩ : ∃ e0 erest, entries = e0 :: erest := by
    cases entries with
    | nil => exact absurd rfl hne
    | cons e0 erest => exact ⟨e0, erest, rfl⟩
  refine ⟨?_, ?_, ?_, ?_⟩
  · simp [normalize_growth_series, max_eq_left hy]
  · intro yneg hyneg
    simp [normalize_growth_series, max_eq_right (by omega : yneg ≤ 1)]
  · intro hlen
    simp only [normalize_growth_series, List.isEmpty_cons, Bool.false_eq_true, if_false,
      pySliceTo, if_pos (by omega : (0 : ℤ) ≤ years)]
    have hz : years.toNat - ((e0 :: erest).map (fun e => e.getD 0)).length = 0 := by
      simp only [List.length_map]
      omega
    rw [hz, List.replicate_zero, List.append_nil]
  · intro hlen
    simp only [normalize_growth_series, List.isEmpty_cons, Bool.false_eq_true, if_false,
      pySliceTo, if_pos (by omega : (0 : ℤ) ≤ years), List.length_map]
    apply List.take_of_length_le
    simp only [List.length_append, List.length_replicate, List.length_map, List.length_cons]
    simp only [List.length_cons] at hlen
    omega

/-- Witness for the amended C5: scalar horizon 4, scalar horizon `-3`,
padding of a two-entry list (with one non-numeric entry) to 4 years, and
truncation of a three-entry list to 2 years. -/
theorem c5_normalize_growth_witness :
    normalize_growth_series (GrowthRaw.scalar (1/20)) 4 = List.replicate (4 : ℤ).toNat (1/20) ∧
    normalize_growth_series (GrowthRaw.scalar (1/20)) (-3) = [1/20] ∧
    normalize_growth_series (GrowthRaw.list [some (1/10), none]) 4 =
      [some (1/10), none].map (fun e => e.getD 0) ++
        List.replicate ((4 : ℤ).toNat - [some (1/10), none].length)
          (([some (1/10), none].map (fun e => e.getD 0)).getLastD 0) ∧
    normalize_growth_series (GrowthRaw.list [some (1/10), none, some 0]) 2 =
      ([some (1/10), none, some 0].map (fun e => e.getD 0)).take (2 : ℤ).toNat := by
  have h1 := c5_normalize_growth (1/20) [some (1/10), none] 4 (by simp) (by norm_num)
  have h2 := c5_normalize_growth (1/20) [some (1/10), none, some 0] 2 (by simp) (by norm_num)
  exact ⟨h1.1, h1.2.1 (-3) (by norm_num), h1.2.2.2 (by norm_num), h2.2.2.1 (by norm_num)⟩

/-! ### Data provider (data_provider.py): snapshot cache (C7) -/

structure FinancialSnapshot where
  ticker : String
  currency : String
  financial_currency : String
  shares_outstanding : ℚ
  current_price : ℚ
  fcf_history : List ℚ
  owner_earnings_history : List ℚ
  dividends_per_share_ttm : ℚ
  metadata : List (String × ℚ)
  warnings : List String
deriving DecidableEq

/-- One `self._cache[ticker]` record: the snapshot plus its store time. -/
structure CacheEntry where
  payload : FinancialSnapshot
  timestamp : ℚ
deriving DecidableEq

/-- The provider state: TTL plus the ticker-keyed cache.  The Python dict is
modelled as an association list; overwriting a key is modelled by prepending
(`List.lookup` returns the first binding). -/
structure YahooFinanceDataProvider where
  cache_ttl : ℚ
  cache : List (String × CacheEntry)
deriving DecidableEq

/-- Python `str.strip()`: drop leading and trailing whitespace. -/
def pyStrip (s : String) : String :=
  ⟨((s.data.dropWhile Char.isWhitespace).reverse.dropWhile Char.isWhitespace).reverse⟩

/-- Python `str.upper()` (ASCII, as ticker symbols are). -/
def pyUpper (s : String) : String := ⟨s.data.map Char.toUpper⟩

/-- Normalization `ticker.strip().upper()` (line 31). -/
def normalizeTicker (ticker : String) : String := pyUpper (pyStrip ticker)

/-- Method `YahooFinanceDataProvider.get_snapshot` (lines 30-100).  Wall-clock time
is passed explicitly as `now`; the entire upstream fetch-and-build
(lines 39-97, network calls into yfinance) is an oracle parameter `fetch`.
The returned `Bool` records whether an upstream fetch was performed. -/
def get_snapshot (p : YahooFinanceDataProvider) (fetch : String → FinancialSnapshot)
    (now : ℚ) (ticker : String) :
    Except String (FinancialSnapshot × YahooFinanceDataProvider × Bool) :=
  let normalized := normalizeTicker ticker
  if normalized = "" then .error "Ticker cannot be empty."
  else
    match p.cache.lookup normalized with
    | some entry =>
      if now - entry.timestamp < p.cache_ttl then .ok (entry.payload, p, false)
      else
        let snapshot := fetch normalized
        .ok (snapshot, ⟨p.cache_ttl, (normalized, ⟨snapshot, now⟩) :: p.cache⟩, true)
    | none =>
      let snapshot := fetch normalized
      .ok (snapshot, ⟨p.cache_ttl, (normalized, ⟨snapshot, now⟩) :: p.cache⟩, true)

/-- A freshly stored cache binding is the one `List.lookup` finds. -/
lemma lookup_insert_self (k : String) (e : CacheEntry) (c : List (String × CacheEntry)) :
    ((k, e) :: c).lookup k = some e := by
  simp [List.lookup]

/-- C7: for a ticker that normalizes to a non-empty symbol, a cache miss
fetches and stores the snapshot under the current timestamp; a call finding a
cached entry of age strictly below the TTL returns exactly that cached
snapshot with no upstream fetch and an unchanged state; and a call finding an
entry whose age has reached the TTL performs a fresh fetch and re-caches the
result under the new timestamp.  Chaining the first conjunct (or the third)
with the second gives the two-call caching behaviour of the claim. -/
theorem c7_snapshot_cache (fetch : String → FinancialSnapshot) (ticker : String)
    (t : ℚ) (hn : normalizeTicker ticker ≠ "") :
    (∀ p : YahooFinanceDataProvider, p.cache.lookup (normalizeTicker ticker) = none →
      get_snapshot p fetch t ticker =
        .ok (fetch (normalizeTicker ticker),
          ⟨p.cache_ttl,
            (normalizeTicker ticker, ⟨fetch (normalizeTicker ticker), t⟩) :: p.cache⟩,
          true) ∧
      ((normalizeTicker ticker, (⟨fetch (normalizeTicker ticker), t⟩ : CacheEntry)) ::
          p.cache).lookup (normalizeTicker ticker) =
        some ⟨fetch (normalizeTicker ticker), t⟩) ∧
    (∀ (p : YahooFinanceDataProvider) (snap : FinancialSnapshot) (ts : ℚ),
      p.cache.lookup (normalizeTicker ticker) = some ⟨snap, ts⟩ →
      (t - ts < p.cache_ttl → get_snapshot p fetch t ticker = .ok (snap, p, false)) ∧
      (p.cache_ttl ≤ t - ts →
        get_snapshot p fetch t ticker =
          .ok (fetch (normalizeTicker ticker),
            ⟨p.cache_ttl,
              (normalizeTicker ticker, ⟨fetch (normalizeTicker ticker), t⟩) :: p.cache⟩,
            true) ∧
        ((normalizeTicker ticker, (⟨fetch (normalizeTicker ticker), t⟩ : CacheEntry)) ::
            p.cache).lookup (normalizeTicker ticker) =
          some ⟨fetch (normalizeTicker ticker), t⟩)) := by
  constructor
  · intro p hmiss
    constructor
    · simp only [get_snapshot, if_neg hn, hmiss]
    · exact lookup_insert_self _ _ _
  · intro p snap ts hhit
    constructor
    · intro hfresh
      simp only [get_snapshot, if_neg hn, hhit, if_pos hfresh]
    · intro hstale
      refine ⟨?_, lookup_insert_self _ _ _⟩
      simp only [get_snapshot, if_neg hn, hhit, if_neg (by linarith : ¬ t - ts < p.cache_ttl)]

/-- Concrete snapshot for the C7 witness. -/
def c7Snapshot : FinancialSnapshot := ⟨"ACME", "USD", "USD", 100, 50, [5], [6], 1, [], []⟩

/-- Deterministic fetch oracle for the C7 witness. -/
def c7Fetch : String → FinancialSnapshot := fun t =>
  { c7Snapshot with ticker := t }

/-- Witness for C7: a miss at time 0 fetches and caches; a second call at
time 100 (< TTL 1800) returns the cached snapshot without fetching and leaves
the state unchanged; a call at time 2000 (≥ TTL) re-fetches and re-caches. -/
theorem c7_snapshot_cache_witness :
    get_snapshot ⟨1800, []⟩ c7Fetch 0 " acme " =
      .ok (c7Fetch "ACME", ⟨1800, [("ACME", ⟨c7Fetch "ACME", 0⟩)]⟩, true) ∧
    get_snapshot ⟨1800, [("ACME", ⟨c7Snapshot, 0⟩)]⟩ c7Fetch 100 "ACME" =
      .ok (c7Snapshot, ⟨1800, [("ACME", ⟨c7Snapshot, 0⟩)]⟩, false) ∧
    get_snapshot ⟨1800, [("ACME", ⟨c7Snapshot, 0⟩)]⟩ c7Fetch 2000 "ACME" =
      .ok (c7Fetch "ACME",
        ⟨1800, [("ACME", ⟨c7Fetch "ACME", 2000⟩), ("ACME", ⟨c7Snapshot, 0⟩)]⟩, true) := by
  have h0 := c7_snapshot_cache c7Fetch " acme " 0 (by decide)
  have h1 := c7_snapshot_cache c7Fetch "ACME" 100 (by decide)
  have h2 := c7_snapshot_cache c7Fetch "ACME" 2000 (by decide)
  refine ⟨(h0.1 ⟨1800, []⟩ (by rfl)).1, ?_, ?_⟩
  · exact (h1.2 ⟨1800, [("ACME", ⟨c7Snapshot, 0⟩)]⟩ c7Snapshot 0 (by rfl)).1 (by norm_num)
  · exact ((h2.2 ⟨1800, [("ACME", ⟨c7Snapshot, 0⟩)]⟩ c7Snapshot 0 (by rfl)).2
      (by norm_num)).1

/-! ### Data provider: free-cash-flow series (C8) -/

/-- A pandas DataFrame as consumed by `_row_values`: a column count and rows
keyed by line-item label (cells already `fillna(0)`-cleaned, hence plain
rationals). -/
structure DataFrame where
  cols : ℕ
  rows : List (String × List ℚ)
deriving DecidableEq

/-- Pandas `df.empty`: no rows or no columns. -/
def DataFrame.isEmpty (df : DataFrame) : Bool := df.rows.isEmpty || df.cols == 0

/-- Method `YahooFinanceDataProvider._row_values` (lines 265-275): the first
candidate label present in the row index wins; an empty frame yields
`([], False)`; no match yields a zero row per column and `False`. -/
def row_values (df : DataFrame) (row_labels : List String) : List ℚ × Bool :=
  if df.isEmpty then ([], false)
  else
    match row_labels.findSome? (fun label => df.rows.lookup label) with
    | some series => (series, true)
    | none => (List.replicate df.cols 0, false)

/-- Method `YahooFinanceDataProvider._compute_fcf_series` (lines 180-201). -/
def compute_fcf_series (cashflow : DataFrame) : List ℚ :=
  if cashflow.isEmpty then []
  else
    let fcfPair := row_values cashflow ["Free Cash Flow"]
    if fcfPair.2 = true ∧ ∃ v ∈ fcfPair.1, (1/1000000000 : ℚ) < |v| then
      fcfPair.1
    else
      let operating := (row_values cashflow
        ["Operating Cash Flow", "Total Cash From Operating Activities",
         "Cash Flow From Continuing Operating Activities"]).1
      let capex := (row_values cashflow
        ["Capital Expenditure", "Capital Expenditures", "Net PPE Purchase And Sale"]).1
      List.zipWith (fun op cap => op - cap) operating capex

/-- C8: an empty table yields an empty history; a present "Free Cash Flow"
row containing some value of magnitude above `1e-9` is returned literally;
otherwise the result is the per-period difference of the operating-cash-flow
and capex component series, each resolved by the first matching candidate
label; and a component with no matching row contributes 0 in every period. -/
theorem c8_fcf_series (df : DataFrame) :
    (df.isEmpty = true → compute_fcf_series df = []) ∧
    (df.isEmpty = false →
      ∀ series, df.rows.lookup "Free Cash Flow" = some series →
        (∃ v ∈ series, (1/1000000000 : ℚ) < |v|) →
        compute_fcf_series df = series) ∧
    (df.isEmpty = false →
      (df.rows.lookup "Free Cash Flow" = none ∨
        ∃ series, df.rows.lookup "Free Cash Flow" = some series ∧
          ∀ v ∈ series, |v| ≤ 1/1000000000) →
      compute_fcf_series df =
        List.zipWith (fun op cap => op - cap)
          (row_values df ["Operating Cash Flow", "Total Cash From Operating Activities",
            "Cash Flow From Continuing Operating Activities"]).1
          (row_values df ["Capital Expenditure", "Capital Expenditures",
            "Net PPE Purchase And Sale"]).1) ∧
    (df.isEmpty = false → ∀ labels : List String,
      labels.findSome? (fun label => df.rows.lookup label) = none →
      (row_values df labels).1 = List.replicate df.cols 0) := by
  refine ⟨?_, ?_, ?_, ?_⟩
  · intro he
    simp [compute_fcf_series, he]
  · intro he series hlk hbig
    have hrv : row_values df ["Free Cash Flow"] = (series, true) := by
      simp [row_values, he, List.findSome?, hlk]
    simp only [compute_fcf_series, he, Bool.false_eq_true, if_false, hrv]
    rw [if_pos ⟨trivial, hbig⟩]
  · intro he hsmall
    rcases hsmall with hnone | ⟨series, hlk, hsmall⟩
    · have hrv : row_values df ["Free Cash Flow"] = (List.replicate df.cols 0, false) := by
        simp [row_values, he, List.findSome?, hnone]
      simp only [compute_fcf_series, he, Bool.false_eq_true, if_false, hrv]
      rw [if_neg]
      rintro ⟨hfb, -⟩
      cases hfb
    · have hrv : row_values df ["Free Cash Flow"] = (series, true) := by
        simp [row_values, he, List.findSome?, hlk]
      simp only [compute_fcf_series, he, Bool.false_eq_true, if_false, hrv]
      rw [if_neg]
      rintro ⟨-, v, hv, hv9⟩
      exact absurd hv9 (not_lt.mpr (hsmall v hv))
  · intro he labels hnone
    simp [row_values, he, hnone]

/-- Cash-flow table with a usable literal "Free Cash Flow" row. -/
def c8Df : DataFrame :=
  ⟨2, [("Free Cash Flow", [100, 200]), ("Operating Cash Flow", [300, 400])]⟩

/-- Cash-flow table without a "Free Cash Flow" row, forcing the
`operating - capex` derivation. -/
def c8DfDerived : DataFrame :=
  ⟨2, [("Operating Cash Flow", [300, 400]), ("Capital Expenditure", [50, 60])]⟩

/-- The empty cash-flow table. -/
def c8DfEmpty : DataFrame := ⟨0, []⟩

/-- Witness for C8 on three concrete tables. -/
theorem c8_fcf_series_witness :
    compute_fcf_series c8DfEmpty = [] ∧
    compute_fcf_series c8Df = [100, 200] ∧
    compute_fcf_series c8DfDerived =
      List.zipWith (fun op cap => op - cap)
        (row_values c8DfDerived ["Operating Cash Flow", "Total Cash From Operating Activities",
          "Cash Flow From Continuing Operating Activities"]).1
        (row_values c8DfDerived ["Capital Expenditure", "Capital Expenditures",
          "Net PPE Purchase And Sale"]).1 ∧
    (row_values c8DfDerived ["Reconciled Depreciation"]).1 = List.replicate c8DfDerived.cols 0 := by
  refine ⟨(c8_fcf_series c8DfEmpty).1 (by rfl), ?_, ?_, ?_⟩
  · exact (c8_fcf_series c8Df).2.1 (by rfl) [100, 200] (by rfl)
      ⟨100, by simp, by norm_num⟩
  · exact (c8_fcf_series c8DfDerived).2.2.1 (by rfl) (Or.inl (by rfl))
  · exact (c8_fcf_series c8DfDerived).2.2.2 (by rfl) ["Reconciled Depreciation"] (by rfl)

end DcfCalc
